import Mathlib

/-!
Shallow embedding of the openbook-dex permissioned proxy
(`src/dex/permissioned/src/middleware.rs` and
`src/dex/permissioned/src/proxy.rs`).

Machine integers are modelled as `Nat` with explicit `% 2 ^ 64` style
bounds where overflow matters; a Rust panic (out-of-bounds index,
`checked_mul(..).unwrap()` on overflow, out-of-range slice) is modelled
as the distinguished error `Err.panic`, so that fallible control flow is
explicit.  External side effects (the CPI calls performed with
`invoke_signed`) are modelled as trace events; the embedding records
which hooks and which external calls happen, in order.
-/

namespace OpenbookProxy

/-- Public keys are 32-byte identifiers; modelled as byte lists. -/
abbrev Pubkey := List Nat

/-- Embedding of `solana_program::account_info::AccountInfo`: identity,
signer/writable flags, owner, data buffer and lamports. -/
structure AccountInfo where
  key : Pubkey
  is_signer : Bool
  is_writable : Bool
  owner : Pubkey
  data : List Nat
  lamports : Nat
deriving DecidableEq, Repr

/-- Error outcomes of the proxy.  The first constructors embed the
`ProgramError` / `ErrorCode` values raised in the source; `panic` models
a Rust panic (an abort that is not a returned error). -/
inductive Err where
  | panic
  | notEnoughAccountKeys
  | missingRequiredSignature
  | invalidReferral
  | unauthorizedUser
  | notEnoughAccounts
  | invalidTargetProgram
deriving DecidableEq, Repr

/-- Embedding of the SPL-token instructions built by the middleware
(`spl_token::instruction::approve` / `revoke`); the instruction is kept
symbolically with the fields the builder receives. -/
inductive TokenIx where
  | approve (source delegate owner : Pubkey) (amount : Nat)
  | revoke (source owner : Pubkey)
deriving DecidableEq, Repr

/-- One seed path: an ordered sequence of byte segments. -/
abbrev SeedPath := List (List Nat)

/-- An auxiliary (pre or post) instruction together with its account
subset and its own seed paths, as stored in the `Context`. -/
structure SideIx where
  ix : TokenIx
  accounts : List AccountInfo
  seeds : List SeedPath
deriving DecidableEq, Repr

/-- Embedding of the per-request `Context` from `middleware.rs`.  The
post-callback function pointer is kept as its account subset and
argument bytes. -/
structure Context where
  program_id : Pubkey
  dex_program_id : Pubkey
  accounts : List AccountInfo
  seeds : List SeedPath
  pre_instructions : List SideIx
  post_instructions : List SideIx
  post_callbacks : List (List AccountInfo × List Nat)
deriving DecidableEq, Repr

/-- Embedding of `Context::new`. -/
def Context.new (program_id dex_program_id : Pubkey)
    (accounts : List AccountInfo) : Context :=
  { program_id := program_id
    dex_program_id := dex_program_id
    accounts := accounts
    seeds := []
    pre_instructions := []
    post_instructions := []
    post_callbacks := [] }

/-- Order side (`serum_dex::matching::Side`). -/
inductive Side where
  | bid
  | ask
deriving DecidableEq, Repr

/-- Embedding of `serum_dex::instruction::NewOrderInstructionV3`; all
numeric fields are machine integers modelled as `Nat`. -/
structure NewOrderInstructionV3 where
  side : Side
  limit_price : Nat
  max_coin_qty : Nat
  max_native_pc_qty_including_fees : Nat
  self_trade_behavior : Nat
  order_type : Nat
  client_order_id : Nat
  limit : Nat
  max_ts : Nat
deriving DecidableEq, Repr

/-- Embedding of `serum_dex::instruction::CancelOrderInstructionV2`. -/
structure CancelOrderInstructionV2 where
  side : Side
  order_id : Nat
deriving DecidableEq, Repr

/-- The closed set of operations the dispatcher recognizes
(`serum_dex::instruction::MarketInstruction`, restricted to the variants
matched in `MarketProxy::run`). -/
inductive MarketInstruction where
  | initOpenOrders
  | newOrderV3 (ix : NewOrderInstructionV3)
  | cancelOrderV2 (ix : CancelOrderInstructionV2)
  | cancelOrderByClientIdV2 (client_id : Nat)
  | settleFunds
  | closeOpenOrders
  | consumeEvents (limit : Nat)
  | consumeEventsPermissioned (limit : Nat)
  | prune (limit : Nat)
deriving DecidableEq, Repr

/-- Little-endian decoding of a byte list, as `u64::from_le_bytes` does
for its 8 bytes (each byte is reduced mod 256). -/
def u64_from_le (bs : List Nat) : Nat :=
  bs.foldr (fun b acc => b % 256 + 256 * acc) 0

/-- The byte string `b"open-orders"`. -/
def openOrdersLabel : List Nat :=
  [111, 112, 101, 110, 45, 111, 114, 100, 101, 114, 115]

/-- The byte string `b"open-orders-init"`. -/
def openOrdersInitLabel : List Nat :=
  [111, 112, 101, 110, 45, 111, 114, 100, 101, 114, 115,
   45, 105, 110, 105, 116]

/-- Embedding of the `open_orders_authority!` macro with an explicit
bump (the `program` argument is received but not used by that macro
arm). -/
def open_orders_authority (_program dex_program market authority : Pubkey)
    (bump : Nat) : SeedPath :=
  [openOrdersLabel, dex_program, market, authority, [bump]]

/-- Embedding of the `open_orders_init_authority!` macro with an
explicit bump. -/
def open_orders_init_authority (_program dex_program market : Pubkey)
    (bump : Nat) : SeedPath :=
  [openOrdersInitLabel, dex_program, market, [bump]]

/-- The registered middleware kinds defined in `middleware.rs`, with the
small per-invocation state `OpenOrdersPda` carries. -/
inductive MW where
  | openOrdersPda (bump bump_init : Nat)
  | logger
  | referralFees (referral : Pubkey)
deriving DecidableEq, Repr

/-- Rust indexing `xs[i]`: the element when in bounds, a panic
otherwise. -/
def accAt (l : List AccountInfo) (i : Nat) : Except Err AccountInfo :=
  match l[i]? with
  | some a => .ok a
  | none => .error .panic

/-- Embedding of `OpenOrdersPda::prepare_pda`. -/
def prepare_pda (acc : AccountInfo) : AccountInfo :=
  { acc with is_signer := true }

/-- Embedding of `OpenOrdersPda::validate_init_accounts`. -/
def validate_init_accounts (accounts : List AccountInfo) : Except Err Unit :=
  if accounts.length < 5 then .error .notEnoughAccountKeys
  else
    match accounts[1]? with
    | some authority =>
        if authority.is_signer then .ok () else .error .missingRequiredSignature
    | none => .error .panic

/-- Embedding of the pre-parse hook `MarketMiddleware::instruction`.
`OpenOrdersPda` strips its discriminator byte and, when it is 0,
captures the two bump bytes; the other middlewares use the no-op
default.  Reads past the end of the buffer are Rust panics. -/
def mwInstruction : MW → List Nat → Except Err (MW × List Nat)
  | .openOrdersPda bump bump_init, data =>
    match data with
    | [] => .error .panic
    | disc :: rest =>
      if disc = 0 then
        match rest with
        | b0 :: b1 :: rest2 => .ok (.openOrdersPda b0 b1, rest2)
        | _ => .error .panic
      else .ok (.openOrdersPda bump bump_init, rest)
  | mw, data => .ok (mw, data)

/-- Embedding of `OpenOrdersPda::init_open_orders`.  Note that
`ctx.accounts[4]` and `ctx.accounts[3]` are read before
`validate_init_accounts` runs. -/
def pdaInitOpenOrders (bump bump_init : Nat) (ctx : Context) :
    Except Err Context := do
  let market ← accAt ctx.accounts 4
  let user ← accAt ctx.accounts 3
  let remaining := ctx.accounts.drop 2
  let _ ← validate_init_accounts remaining
  let seedsAuth := open_orders_authority ctx.program_id ctx.dex_program_id
    market.key user.key bump
  let seedsInit := open_orders_init_authority ctx.program_id
    ctx.dex_program_id market.key bump_init
  let accounts := ctx.accounts.drop 2
  let accounts :=
    if accounts.length > 1 then
      match accounts[0]? with
      | some a0 => accounts.set 1 (prepare_pda a0)
      | none => accounts
    else accounts
  let accounts :=
    if accounts.length > 4 then
      match accounts[4]? with
      | some a4 => accounts.set 4 { a4 with is_signer := true }
      | none => accounts
    else accounts
  .ok { ctx with
          seeds := ctx.seeds ++ [seedsAuth, seedsInit]
          accounts := accounts }

/-- The fixed byte offset of the coin lot size inside the market account
data (`5 + 43 * 8` in `OpenOrdersPda::new_order_v3`). -/
def coin_lot_idx : Nat := 5 + 43 * 8

/-- Embedding of `OpenOrdersPda::new_order_v3`.  The ask-side amount
reads 8 bytes at `coin_lot_idx` from the market data (slicing past the
end is a panic) and multiplies with `checked_mul(..).unwrap()` (a panic
on 64-bit overflow). -/
def pdaNewOrderV3 (bump : Nat) (ctx : Context)
    (ix : NewOrderInstructionV3) :
    Except Err (Context × NewOrderInstructionV3) := do
  let user ← accAt ctx.accounts 7
  if !user.is_signer then
    .error .unauthorizedUser
  else do
    let market ← accAt ctx.accounts 0
    let open_orders ← accAt ctx.accounts 1
    let token_account_payer ← accAt ctx.accounts 6
    let amount ←
      match ix.side with
      | .bid => Except.ok ix.max_native_pc_qty_including_fees
      | .ask =>
        if market.data.length < coin_lot_idx + 8 then
          Except.error .panic
        else
          let coin_lot_size :=
            u64_from_le ((market.data.drop coin_lot_idx).take 8)
          let prod := ix.max_coin_qty * coin_lot_size
          if prod < 2 ^ 64 then Except.ok prod else Except.error .panic
    let pre : SideIx :=
      { ix := .approve token_account_payer.key open_orders.key user.key amount
        accounts := [token_account_payer, open_orders, user]
        seeds := [] }
    let post : SideIx :=
      { ix := .revoke token_account_payer.key user.key
        accounts := [token_account_payer, user]
        seeds := [] }
    let seedsAuth := open_orders_authority ctx.program_id ctx.dex_program_id
      market.key user.key bump
    .ok ({ ctx with
             pre_instructions := ctx.pre_instructions ++ [pre]
             post_instructions := ctx.post_instructions ++ [post]
             seeds := ctx.seeds ++ [seedsAuth]
             accounts := ctx.accounts.set 7 (prepare_pda open_orders) }, ix)

/-- Embedding of `OpenOrdersPda::cancel_order_v2`. -/
def pdaCancelOrderV2 (bump : Nat) (ctx : Context) : Except Err Context := do
  let market ← accAt ctx.accounts 0
  let user ← accAt ctx.accounts 4
  if !user.is_signer then
    .error .unauthorizedUser
  else do
    let seedsAuth := open_orders_authority ctx.program_id ctx.dex_program_id
      market.key user.key bump
    let a3 ← accAt ctx.accounts 3
    .ok { ctx with
            seeds := ctx.seeds ++ [seedsAuth]
            accounts := ctx.accounts.set 4 (prepare_pda a3) }

/-- Embedding of `OpenOrdersPda::cancel_order_by_client_id_v2` (the body
mirrors `cancel_order_v2`). -/
def pdaCancelOrderByClientIdV2 (bump : Nat) (ctx : Context) :
    Except Err Context := do
  let market ← accAt ctx.accounts 0
  let user ← accAt ctx.accounts 4
  if !user.is_signer then
    .error .unauthorizedUser
  else do
    let seedsAuth := open_orders_authority ctx.program_id ctx.dex_program_id
      market.key user.key bump
    let a3 ← accAt ctx.accounts 3
    .ok { ctx with
            seeds := ctx.seeds ++ [seedsAuth]
            accounts := ctx.accounts.set 4 (prepare_pda a3) }

/-- Embedding of `OpenOrdersPda::settle_funds`. -/
def pdaSettleFunds (bump : Nat) (ctx : Context) : Except Err Context := do
  let market ← accAt ctx.accounts 0
  let user ← accAt ctx.accounts 2
  if !user.is_signer then
    .error .unauthorizedUser
  else do
    let seedsAuth := open_orders_authority ctx.program_id ctx.dex_program_id
      market.key user.key bump
    let a1 ← accAt ctx.accounts 1
    .ok { ctx with
            seeds := ctx.seeds ++ [seedsAuth]
            accounts := ctx.accounts.set 2 (prepare_pda a1) }

/-- Embedding of `OpenOrdersPda::close_open_orders`. -/
def pdaCloseOpenOrders (bump : Nat) (ctx : Context) : Except Err Context := do
  let market ← accAt ctx.accounts 3
  let user ← accAt ctx.accounts 1
  if !user.is_signer then
    .error .unauthorizedUser
  else do
    let seedsAuth := open_orders_authority ctx.program_id ctx.dex_program_id
      market.key user.key bump
    let a0 ← accAt ctx.accounts 0
    .ok { ctx with
            seeds := ctx.seeds ++ [seedsAuth]
            accounts := ctx.accounts.set 1 (prepare_pda a0) }

/-- Embedding of `OpenOrdersPda::prune`: aliases account 4 onto slot 5
(both indexings panic when out of bounds). -/
def pdaPrune (ctx : Context) : Except Err Context := do
  let a4 ← accAt ctx.accounts 4
  let _ ← accAt ctx.accounts 5
  .ok { ctx with accounts := ctx.accounts.set 5 a4 }

/-- The SPL token-account authority accessor used by `ReferralFees`
(external `anchor_spl::token::accessor::authority`): the owner field is
bytes 32..64 of the token account data; a shorter buffer panics the
slice copy. -/
def token_authority (acc : AccountInfo) : Except Err Pubkey :=
  if acc.data.length < 64 then .error .panic
  else .ok ((acc.data.drop 32).take 32)

/-- Embedding of `ReferralFees::settle_funds`. -/
def referralSettleFunds (referral : Pubkey) (ctx : Context) :
    Except Err Context := do
  let acc9 ← accAt ctx.accounts 9
  let auth ← token_authority acc9
  if auth = referral then .ok ctx else .error .invalidReferral

/-- Dispatch of the `init_open_orders` hook over the middleware kinds
(`Logger::init_open_orders` only logs; `ReferralFees` uses the trait
default). -/
def mwInitOpenOrders : MW → Context → Except Err Context
  | .openOrdersPda b bi, ctx => pdaInitOpenOrders b bi ctx
  | .logger, ctx => .ok ctx
  | .referralFees _, ctx => .ok ctx

/-- Dispatch of the `new_order_v3` hook over the middleware kinds. -/
def mwNewOrderV3 : MW → Context × NewOrderInstructionV3 →
    Except Err (Context × NewOrderInstructionV3)
  | .openOrdersPda b _, (ctx, ix) => pdaNewOrderV3 b ctx ix
  | .logger, s => .ok s
  | .referralFees _, s => .ok s

/-- Dispatch of the `cancel_order_v2` hook over the middleware kinds. -/
def mwCancelOrderV2 : MW → Context × CancelOrderInstructionV2 →
    Except Err (Context × CancelOrderInstructionV2)
  | .openOrdersPda b _, (ctx, ix) => (pdaCancelOrderV2 b ctx).map (·, ix)
  | .logger, s => .ok s
  | .referralFees _, s => .ok s

/-- Dispatch of the `cancel_order_by_client_id_v2` hook. -/
def mwCancelOrderByClientIdV2 : MW → Context × Nat →
    Except Err (Context × Nat)
  | .openOrdersPda b _, (ctx, cid) =>
      (pdaCancelOrderByClientIdV2 b ctx).map (·, cid)
  | .logger, s => .ok s
  | .referralFees _, s => .ok s

/-- Dispatch of the `settle_funds` hook over the middleware kinds. -/
def mwSettleFunds : MW → Context → Except Err Context
  | .openOrdersPda b _, ctx => pdaSettleFunds b ctx
  | .logger, ctx => .ok ctx
  | .referralFees referral, ctx => referralSettleFunds referral ctx

/-- Dispatch of the `close_open_orders` hook over the middleware kinds. -/
def mwCloseOpenOrders : MW → Context → Except Err Context
  | .openOrdersPda b _, ctx => pdaCloseOpenOrders b ctx
  | .logger, ctx => .ok ctx
  | .referralFees _, ctx => .ok ctx

/-- Dispatch of the `consume_events` hook: every registered middleware
uses the trait default. -/
def mwConsumeEvents : MW → Context × Nat → Except Err (Context × Nat)
  | _, s => .ok s

/-- Dispatch of the `consume_events_permissioned` hook: every registered
middleware uses the trait default. -/
def mwConsumeEventsPermissioned : MW → Context × Nat →
    Except Err (Context × Nat)
  | _, s => .ok s

/-- Dispatch of the `prune` hook over the middleware kinds. -/
def mwPrune : MW → Context × Nat → Except Err (Context × Nat)
  | .openOrdersPda _ _, (ctx, limit) => (pdaPrune ctx).map (·, limit)
  | .logger, s => .ok s
  | .referralFees _, s => .ok s

/-- Dispatch of the `fallback` hook: every registered middleware uses
the trait default (success, no mutation). -/
def mwFallback : MW → Context → Except Err Context
  | _, ctx => .ok ctx

/-- Observable events of one invocation: which hook of which middleware
(by registration index) ran, and which external calls were made. -/
inductive Event where
  | preParse (i : Nat)
  | opHook (i : Nat)
  | fallback (i : Nat)
  | execPre
  | relay
  | execPost
  | postCallback
deriving DecidableEq, Repr

/-- Fail-fast left-to-right fold of one operation hook over the
middleware chain, recording an `opHook` event for each hook that runs
(the event is recorded whether the hook succeeds or fails). -/
def foldHooks {σ : Type} (hook : MW → σ → Except Err σ) :
    List MW → Nat → σ → List Event × Except Err σ
  | [], _, s => ([], .ok s)
  | mw :: rest, i, s =>
    match hook mw s with
    | .error e => ([.opHook i], .error e)
    | .ok s' =>
      let (evs, r) := foldHooks hook rest (i + 1) s'
      (.opHook i :: evs, r)

/-- Fail-fast fold of the fallback hooks, in registration order. -/
def foldFallback : List MW → Nat → Context → List Event × Except Err Context
  | [], _, ctx => ([], .ok ctx)
  | mw :: rest, i, ctx =>
    match mwFallback mw ctx with
    | .error e => ([.fallback i], .error e)
    | .ok ctx' =>
      let (evs, r) := foldFallback rest (i + 1) ctx'
      (.fallback i :: evs, r)

/-- The pre-parse pass of `MarketProxy::run`: every middleware's
`instruction` hook runs in registration order over the byte cursor,
fail-fast, each hook also updating its own captured state. -/
def runPreParse : List MW → Nat → List Nat →
    List Event × Except Err (List MW × List Nat)
  | [], _, d => ([], .ok ([], d))
  | mw :: rest, i, d =>
    match mwInstruction mw d with
    | .error e => ([.preParse i], .error e)
    | .ok (mw', d') =>
      let (evs, r) := runPreParse rest (i + 1) d'
      (.preParse i :: evs,
       match r with
       | .error e => .error e
       | .ok (mws', d2) => .ok (mw' :: mws', d2))

/-- Modelled from the spec: `serum_dex::instruction::MarketInstruction::unpack`
is external to this repository (the `serum_dex` crate).  Per the spec,
the wire format is `[operation discriminant][fixed-layout payload]`, the
decoder maps a raw buffer onto the closed variant set, and an empty or
malformed buffer decodes to "unrecognized" (`none`) instead of
failing. -/
def unpack (data : List Nat) : Option MarketInstruction :=
  match data with
  | 0 :: rest => if rest.isEmpty then some .initOpenOrders else none
  | 1 :: s :: rest =>
    if s ≤ 1 ∧ rest.length = 16 then
      some (.newOrderV3
        { side := if s = 0 then .bid else .ask
          limit_price := 0
          max_coin_qty := u64_from_le (rest.take 8)
          max_native_pc_qty_including_fees := u64_from_le (rest.drop 8)
          self_trade_behavior := 0
          order_type := 0
          client_order_id := 0
          limit := 0
          max_ts := 0 })
    else none
  | 2 :: s :: rest =>
    if s ≤ 1 ∧ rest.length = 16 then
      some (.cancelOrderV2
        { side := if s = 0 then .bid else .ask
          order_id := u64_from_le rest })
    else none
  | 3 :: rest =>
    if rest.length = 8 then some (.cancelOrderByClientIdV2 (u64_from_le rest))
    else none
  | 4 :: rest => if rest.isEmpty then some .settleFunds else none
  | 5 :: rest => if rest.isEmpty then some .closeOpenOrders else none
  | 6 :: rest =>
    if rest.length = 2 then some (.consumeEvents (u64_from_le rest)) else none
  | 7 :: rest =>
    if rest.length = 2 then some (.consumeEventsPermissioned (u64_from_le rest))
    else none
  | 8 :: rest =>
    if rest.length = 2 then some (.prune (u64_from_le rest)) else none
  | _ => none

/-- The fixed minimum working-account count the dispatcher checks for
each recognized operation (the literals of the `match` in
`MarketProxy::run`). -/
def minAccounts : MarketInstruction → Nat
  | .initOpenOrders => 4
  | .newOrderV3 _ => 12
  | .cancelOrderV2 _ => 6
  | .cancelOrderByClientIdV2 _ => 6
  | .settleFunds => 10
  | .closeOpenOrders => 4
  | .consumeEvents _ => 4
  | .consumeEventsPermissioned _ => 3
  | .prune _ => 7

/-- Result of the dispatch `match`: either the pipeline proceeds to the
relay with the mutated context, or the unrecognized-instruction branch
fell back and `run` returns success early. -/
inductive Dispatched where
  | proceed (ctx : Context)
  | fellBack (ctx : Context)
deriving DecidableEq, Repr

/-- Embedding of the method-dispatch `match` in `MarketProxy::run`: the
per-operation minimum-account check, then fan-out of the operation's
hook over the middleware chain (or of `fallback` when the instruction is
unrecognized). -/
def dispatch (mws : List MW) (ctx : Context) :
    Option MarketInstruction → List Event × Except Err Dispatched
  | some .initOpenOrders =>
    if ctx.accounts.length < 4 then ([], .error .notEnoughAccounts)
    else
      let (evs, r) := foldHooks mwInitOpenOrders mws 0 ctx
      (evs, r.map .proceed)
  | some (.newOrderV3 o) =>
    if ctx.accounts.length < 12 then ([], .error .notEnoughAccounts)
    else
      let (evs, r) := foldHooks mwNewOrderV3 mws 0 (ctx, o)
      (evs, r.map (fun s => .proceed s.1))
  | some (.cancelOrderV2 o) =>
    if ctx.accounts.length < 6 then ([], .error .notEnoughAccounts)
    else
      let (evs, r) := foldHooks mwCancelOrderV2 mws 0 (ctx, o)
      (evs, r.map (fun s => .proceed s.1))
  | some (.cancelOrderByClientIdV2 cid) =>
    if ctx.accounts.length < 6 then ([], .error .notEnoughAccounts)
    else
      let (evs, r) := foldHooks mwCancelOrderByClientIdV2 mws 0 (ctx, cid)
      (evs, r.map (fun s => .proceed s.1))
  | some .settleFunds =>
    if ctx.accounts.length < 10 then ([], .error .notEnoughAccounts)
    else
      let (evs, r) := foldHooks mwSettleFunds mws 0 ctx
      (evs, r.map .proceed)
  | some .closeOpenOrders =>
    if ctx.accounts.length < 4 then ([], .error .notEnoughAccounts)
    else
      let (evs, r) := foldHooks mwCloseOpenOrders mws 0 ctx
      (evs, r.map .proceed)
  | some (.consumeEvents limit) =>
    if ctx.accounts.length < 4 then ([], .error .notEnoughAccounts)
    else
      let (evs, r) := foldHooks mwConsumeEvents mws 0 (ctx, limit)
      (evs, r.map (fun s => .proceed s.1))
  | some (.consumeEventsPermissioned limit) =>
    if ctx.accounts.length < 3 then ([], .error .notEnoughAccounts)
    else
      let (evs, r) := foldHooks mwConsumeEventsPermissioned mws 0 (ctx, limit)
      (evs, r.map (fun s => .proceed s.1))
  | some (.prune limit) =>
    if ctx.accounts.length < 7 then ([], .error .notEnoughAccounts)
    else
      let (evs, r) := foldHooks mwPrune mws 0 (ctx, limit)
      (evs, r.map (fun s => .proceed s.1))
  | none =>
    let (evs, r) := foldFallback mws 0 ctx
    (evs, r.map .fellBack)

/-- The fixed downstream-target identity `SERUM_DEX_PROGRAM_ID` from
`proxy.rs`. -/
def SERUM_DEX_PROGRAM_ID : Pubkey :=
  [57, 197, 30, 22, 184, 218, 211, 222, 151, 184, 186, 13, 222, 222, 222, 222,
   151, 184, 186, 13, 222, 222, 222, 222, 151, 184, 186, 13, 222, 222, 222, 222]

/-- Successful outcome of `MarketProxy::run`: either the fallback path
exited early with no relay, or a relay happened; in the latter case the
outcome records what the external calls received — the pre-instructions,
the full seed set and mutated account list given to the main relay CPI,
and the post-instructions. -/
inductive RunOutcome where
  | fellBack
  | relayed (pre : List SideIx) (seeds : List SeedPath)
      (accounts : List AccountInfo) (post : List SideIx)
deriving DecidableEq, Repr

/-- Embedding of `MarketProxy::run`: target-program validation,
pre-parse pass, decode, dispatch, then the ordered external calls
(pre-instructions, the main relay, post-instructions, post-callbacks),
recorded as events.  The nested `invoke_signed` calls are external; the
embedding records them and models them as succeeding. -/
def run (mws : List MW) (program_id : Pubkey)
    (accounts : List AccountInfo) (data : List Nat) :
    List Event × Except Err RunOutcome :=
  match accounts with
  | [] => ([], .error .panic)
  | dex :: rest =>
    if dex.key ≠ SERUM_DEX_PROGRAM_ID then ([], .error .invalidTargetProgram)
    else
      let (pev, pr) := runPreParse mws 0 data
      match pr with
      | .error e => (pev, .error e)
      | .ok (mws', ix_data) =>
        let ctx := Context.new program_id dex.key rest
        let (dev, dr) := dispatch mws' ctx (unpack ix_data)
        match dr with
        | .error e => (pev ++ dev, .error e)
        | .ok (.fellBack _) => (pev ++ dev, .ok .fellBack)
        | .ok (.proceed ctx') =>
          (pev ++ dev
             ++ ctx'.pre_instructions.map (fun _ => Event.execPre)
             ++ [Event.relay]
             ++ ctx'.post_instructions.map (fun _ => Event.execPost)
             ++ ctx'.post_callbacks.map (fun _ => Event.postCallback),
           .ok (.relayed ctx'.pre_instructions ctx'.seeds ctx'.accounts
                  ctx'.post_instructions))

/-- A concrete account value used by the evaluation witnesses. -/
def sampleAccount (k : Pubkey) (s : Bool) : AccountInfo :=
  { key := k, is_signer := s, is_writable := false, owner := [],
    data := [], lamports := 0 }

/-- A concrete five-element working account list whose position 3 is a
signer. -/
def fiveAccounts : List AccountInfo :=
  [sampleAccount [1] false, sampleAccount [1] false, sampleAccount [1] false,
   sampleAccount [1] true, sampleAccount [1] false]

/-- The fallback hooks always succeed without touching the context, so
the fallback fold emits one `fallback` event per middleware, in
registration order, and returns the context unchanged. -/
theorem foldFallback_eq (mws : List MW) (i : Nat) (ctx : Context) :
    foldFallback mws i ctx =
      ((List.range mws.length).map (fun j => Event.fallback (i + j)),
       .ok ctx) := by
  induction mws generalizing i with
  | nil => simp [foldFallback]
  | cons mw rest ih =>
    have hstep : ∀ j, i + 1 + j = i + (j + 1) := by omega
    simp [foldFallback, mwFallback, ih, List.range_succ_eq_map,
      List.map_map, Function.comp_def, hstep]

/-- The pre-parse pass either succeeds having emitted exactly one
`preParse` event per middleware, in registration order, preserving the
chain's length, or fails with a trace made only of `preParse` events. -/
theorem runPreParse_spec (mws : List MW) (i : Nat) (d : List Nat) :
    (∃ mws' d',
       runPreParse mws i d =
         ((List.range mws.length).map (fun j => Event.preParse (i + j)),
          .ok (mws', d')) ∧
       mws'.length = mws.length) ∨
    (∃ evs e, runPreParse mws i d = (evs, .error e) ∧
       ∀ x ∈ evs, ∃ j, x = Event.preParse j) := by
  induction mws generalizing i d with
  | nil => exact .inl ⟨[], d, by simp [runPreParse], rfl⟩
  | cons mw rest ih =>
    cases hmw : mwInstruction mw d with
    | error e =>
      refine .inr ⟨[.preParse i], e, by simp [runPreParse, hmw], ?_⟩
      intro x hx
      simp at hx
      exact ⟨i, hx⟩
    | ok s =>
      obtain ⟨mw1, d1⟩ := s
      rcases ih (i + 1) d1 with ⟨mws2, d2, heq, hlen⟩ | ⟨evs1, e, heq, hev⟩
      · refine .inl ⟨mw1 :: mws2, d2, ?_, by simp [hlen]⟩
        have hstep : ∀ j, i + 1 + j = i + (j + 1) := by omega
        simp [runPreParse, hmw, heq, List.range_succ_eq_map, List.map_map,
          Function.comp_def, hstep]
      · refine .inr ⟨.preParse i :: evs1, e, by simp [runPreParse, hmw, heq], ?_⟩
        intro x hx
        rcases List.mem_cons.mp hx with hx | hx
        · exact ⟨i, hx⟩
        · exact hev x hx

/-- Binding a successful `Except` computation reduces to the
continuation. -/
@[simp] theorem except_bind_ok {α β : Type} (a : α)
    (f : α → Except Err β) : (Except.ok a >>= f) = f a := rfl

/-- Binding a failed `Except` computation propagates the error. -/
@[simp] theorem except_bind_error {α β : Type} (e : Err)
    (f : α → Except Err β) :
    ((Except.error e : Except Err α) >>= f) = Except.error e := rfl

/-- Mapping over a successful `Except` computation applies the
function. -/
@[simp] theorem except_map_ok {α β : Type} (a : α) (f : α → β) :
    (Except.ok a : Except Err α).map f = Except.ok (f a) := rfl

/-- Mapping over a failed `Except` computation propagates the error. -/
@[simp] theorem except_map_error {α β : Type} (e : Err) (f : α → β) :
    (Except.error e : Except Err α).map f = Except.error e := rfl

/-- C9: every authority seed-path built by the delegation middleware is
exactly the 5-segment sequence [label "open-orders", downstream-target
identity, market identity, user authority identity, single bump byte],
and every init-authority seed-path is exactly the 4-segment sequence
[label "open-orders-init", downstream-target identity, market identity,
single bump byte]; with an explicit bump the construction is a total
pure function with no error path. -/
theorem c9_seed_path_shapes (p d m a : Pubkey) (b : Nat) :
    open_orders_authority p d m a b = [openOrdersLabel, d, m, a, [b]] ∧
    (open_orders_authority p d m a b).length = 5 ∧
    open_orders_init_authority p d m b = [openOrdersInitLabel, d, m, [b]] ∧
    (open_orders_init_authority p d m b).length = 4 :=
  ⟨rfl, rfl, rfl, rfl⟩

/-- C3: for every recognized operation, when the working account list is
shorter than the operation's minimum count — initialize-account 4,
place-order 12, cancel-order and cancel-order-by-client-id 6,
settle-funds 10, close-account 4, consume-events 4,
consume-events-permissioned 3, prune 7 — the dispatcher fails with the
not-enough-accounts error and no operation-specific hook runs (the
event trace is empty). -/
theorem c3_not_enough_accounts (mws : List MW) (ctx : Context)
    (ix : MarketInstruction) (h : ctx.accounts.length < minAccounts ix) :
    dispatch mws ctx (some ix) = ([], .error .notEnoughAccounts) ∧
    minAccounts .initOpenOrders = 4 ∧
    (∀ o, minAccounts (.newOrderV3 o) = 12) ∧
    (∀ o, minAccounts (.cancelOrderV2 o) = 6) ∧
    (∀ c, minAccounts (.cancelOrderByClientIdV2 c) = 6) ∧
    minAccounts .settleFunds = 10 ∧
    minAccounts .closeOpenOrders = 4 ∧
    (∀ l, minAccounts (.consumeEvents l) = 4) ∧
    (∀ l, minAccounts (.consumeEventsPermissioned l) = 3) ∧
    (∀ l, minAccounts (.prune l) = 7) := by
  refine ⟨?_, rfl, fun _ => rfl, fun _ => rfl, fun _ => rfl, rfl, rfl,
    fun _ => rfl, fun _ => rfl, fun _ => rfl⟩
  cases ix <;> simp [minAccounts] at h <;> simp [dispatch, h]

/-- Witness for C3 at a concrete input: settle-funds with an empty
working account list fails with not-enough-accounts and an empty
trace. -/
theorem c3_not_enough_accounts_witness :
    dispatch [] (Context.new [] [] []) (some .settleFunds) =
      ([], .error .notEnoughAccounts) :=
  (c3_not_enough_accounts [] (Context.new [] [] []) .settleFunds
    (by decide)).1

/-- C7: when the key of the first supplied account differs from the
fixed downstream-target identity, `run` fails with the
invalid-target-program error with an empty event trace, so no pre-parse
hook, decode, or relay occurred. -/
theorem c7_invalid_target_program (mws : List MW) (pid : Pubkey)
    (dex : AccountInfo) (rest : List AccountInfo) (data : List Nat)
    (h : dex.key ≠ SERUM_DEX_PROGRAM_ID) :
    run mws pid (dex :: rest) data = ([], .error .invalidTargetProgram) := by
  simp [run, h]

/-- Witness for C7 at a concrete input. -/
theorem c7_invalid_target_program_witness :
    run [.logger] [] [sampleAccount [1] false] [] =
      ([], .error .invalidTargetProgram) :=
  c7_invalid_target_program [.logger] [] (sampleAccount [1] false) [] []
    (by decide)

/-- C8: for settle-funds through the ReferralFees middleware (reads in
bounds: at least 10 working accounts and a token account data buffer of
at least 64 bytes), the hook succeeds and returns the context unchanged
exactly when the token authority read from the account at position 9 —
the owner field, bytes 32..64 of its data — equals the configured
referral identity, and fails with the invalid-referral error otherwise;
it never mutates the context (there is no payload to mutate). -/
theorem c8_referral_fee_gate (referral : Pubkey) (ctx : Context)
    (acc9 : AccountInfo) (h9 : ctx.accounts[9]? = some acc9)
    (hlen : 64 ≤ acc9.data.length) :
    ((acc9.data.drop 32).take 32 = referral →
       referralSettleFunds referral ctx = .ok ctx) ∧
    ((acc9.data.drop 32).take 32 ≠ referral →
       referralSettleFunds referral ctx = .error .invalidReferral) := by
  have hnl : ¬(acc9.data.length < 64) := by omega
  constructor <;> intro hc <;>
    simp [referralSettleFunds, accAt, h9, token_authority, hnl, hc]

/-- A concrete token account whose owner field (bytes 32..64) is 32
copies of 7. -/
def referralAccount : AccountInfo :=
  { key := [3], is_signer := false, is_writable := false, owner := [],
    data := List.replicate 64 7, lamports := 0 }

/-- A concrete settle-funds context with ten working accounts. -/
def settleCtx : Context :=
  Context.new [] SERUM_DEX_PROGRAM_ID
    (List.replicate 9 (sampleAccount [1] false) ++ [referralAccount])

/-- Witness for C8 at a concrete input: the matching referral identity
is accepted and the context is unchanged. -/
theorem c8_referral_fee_gate_witness :
    referralSettleFunds (List.replicate 32 7) settleCtx = .ok settleCtx :=
  (c8_referral_fee_gate (List.replicate 32 7) settleCtx referralAccount
    (by decide) (by decide)).1 (by decide)

/-- C2: for a place-order request through OpenOrdersPda (signer present
at working position 7, all fixed positions in bounds), the appended
pre-instruction is a token approve whose amount is: for a bid, exactly
the order's max_native_pc_qty_including_fees field; for an ask, exactly
the order's max_coin_qty multiplied by the 8-byte little-endian lot-size
value read at byte offset 5 + 43 * 8 of the market account's data, so
the amount depends proportionally on the lot-size value stored at that
offset. -/
theorem c2_place_order_approve_amount (b : Nat) (ctx : Context)
    (o : NewOrderInstructionV3) (user market oo payer : AccountInfo)
    (h7 : ctx.accounts[7]? = some user) (hs : user.is_signer = true)
    (h0 : ctx.accounts[0]? = some market) (h1 : ctx.accounts[1]? = some oo)
    (h6 : ctx.accounts[6]? = some payer) :
    (o.side = .bid →
       ∃ ctxq, pdaNewOrderV3 b ctx o = .ok (ctxq, o) ∧
         ctxq.pre_instructions = ctx.pre_instructions ++
           [{ ix := .approve payer.key oo.key user.key
                o.max_native_pc_qty_including_fees,
              accounts := [payer, oo, user], seeds := [] }]) ∧
    (∀ L, o.side = .ask → coin_lot_idx + 8 ≤ market.data.length →
       u64_from_le ((market.data.drop coin_lot_idx).take 8) = L →
       o.max_coin_qty * L < 2 ^ 64 →
       ∃ ctxq, pdaNewOrderV3 b ctx o = .ok (ctxq, o) ∧
         ctxq.pre_instructions = ctx.pre_instructions ++
           [{ ix := .approve payer.key oo.key user.key (o.max_coin_qty * L),
              accounts := [payer, oo, user], seeds := [] }]) := by
  constructor
  · intro hside
    refine ⟨{ ctx with
        pre_instructions := ctx.pre_instructions ++
          [{ ix := .approve payer.key oo.key user.key
               o.max_native_pc_qty_including_fees,
             accounts := [payer, oo, user], seeds := [] }]
        post_instructions := ctx.post_instructions ++
          [{ ix := .revoke payer.key user.key, accounts := [payer, user],
             seeds := [] }]
        seeds := ctx.seeds ++
          [open_orders_authority ctx.program_id ctx.dex_program_id
             market.key user.key b]
        accounts := ctx.accounts.set 7 (prepare_pda oo) }, ?_, rfl⟩
    simp [pdaNewOrderV3, accAt, h7, h0, h1, h6, hs, hside]
  · intro L hside hmlen hL hover
    have hnl : ¬(market.data.length < coin_lot_idx + 8) := by omega
    refine ⟨{ ctx with
        pre_instructions := ctx.pre_instructions ++
          [{ ix := .approve payer.key oo.key user.key (o.max_coin_qty * L),
             accounts := [payer, oo, user], seeds := [] }]
        post_instructions := ctx.post_instructions ++
          [{ ix := .revoke payer.key user.key, accounts := [payer, user],
             seeds := [] }]
        seeds := ctx.seeds ++
          [open_orders_authority ctx.program_id ctx.dex_program_id
             market.key user.key b]
        accounts := ctx.accounts.set 7 (prepare_pda oo) }, ?_, rfl⟩
    simp [pdaNewOrderV3, accAt, h7, h0, h1, h6, hs, hside, hnl, hL, hover]
    omega

/-- A concrete bid-order context with eight working accounts, the one at
position 7 a signer. -/
def bidCtx : Context :=
  Context.new [] SERUM_DEX_PROGRAM_ID
    (List.replicate 7 (sampleAccount [1] false) ++ [sampleAccount [1] true])

/-- A concrete bid order whose quote ceiling is 55. -/
def bidOrder : NewOrderInstructionV3 :=
  { side := .bid, limit_price := 0, max_coin_qty := 0,
    max_native_pc_qty_including_fees := 55, self_trade_behavior := 0,
    order_type := 0, client_order_id := 0, limit := 0, max_ts := 0 }

/-- Witness for C2 at a concrete input: the bid approve amount is the
order's quote ceiling, 55. -/
theorem c2_place_order_approve_amount_witness :
    ∃ ctxq, pdaNewOrderV3 0 bidCtx bidOrder = .ok (ctxq, bidOrder) ∧
      ctxq.pre_instructions = bidCtx.pre_instructions ++
        [{ ix := .approve (sampleAccount [1] false).key
             (sampleAccount [1] false).key (sampleAccount [1] true).key
             bidOrder.max_native_pc_qty_including_fees,
           accounts := [sampleAccount [1] false, sampleAccount [1] false,
             sampleAccount [1] true], seeds := [] }] :=
  (c2_place_order_approve_amount 0 bidCtx bidOrder (sampleAccount [1] true)
    (sampleAccount [1] false) (sampleAccount [1] false)
    (sampleAccount [1] false) (by decide) (by decide) (by decide)
    (by decide) (by decide)).1 (by decide)

/-- A concrete ask-side market whose lot-size bytes at offset 349 encode
the 64-bit maximum, so that max_coin_qty = 2 overflows the product. -/
def overflowMarket : AccountInfo :=
  { key := [2], is_signer := false, is_writable := false, owner := [],
    data := List.replicate 349 0 ++ List.replicate 8 255, lamports := 0 }

/-- A concrete place-order context holding the overflowing market. -/
def overflowCtx : Context :=
  Context.new [] SERUM_DEX_PROGRAM_ID
    (overflowMarket :: List.replicate 6 (sampleAccount [1] false) ++
      [sampleAccount [1] true])

/-- A concrete ask order with max_coin_qty = 2. -/
def overflowOrder : NewOrderInstructionV3 :=
  { side := .ask, limit_price := 0, max_coin_qty := 2,
    max_native_pc_qty_including_fees := 0, self_trade_behavior := 0,
    order_type := 0, client_order_id := 0, limit := 0, max_ts := 0 }

set_option maxRecDepth 10000 in
/-- C10: for an ask-side place-order there are payload and market-data
values whose product max_coin_qty * lot-size exceeds the 64-bit maximum
and make the amount computation panic (checked_mul(..).unwrap()) instead
of returning an error, and for every non-overflowing input the computed
approve amount is the exact integer product. -/
theorem c10_ask_amount_overflow :
    pdaNewOrderV3 0 overflowCtx overflowOrder = .error .panic ∧
    (∀ b ctx o user market oo payer,
       (ctx : Context).accounts[7]? = some user → user.is_signer = true →
       ctx.accounts[0]? = some market → ctx.accounts[1]? = some oo →
       ctx.accounts[6]? = some payer →
       (o : NewOrderInstructionV3).side = .ask →
       coin_lot_idx + 8 ≤ (market : AccountInfo).data.length →
       o.max_coin_qty *
           u64_from_le ((market.data.drop coin_lot_idx).take 8) < 2 ^ 64 →
       ∃ ctxq, pdaNewOrderV3 b ctx o = .ok (ctxq, o) ∧
         ctxq.pre_instructions = ctx.pre_instructions ++
           [{ ix := .approve (payer : AccountInfo).key oo.key user.key
                (o.max_coin_qty *
                  u64_from_le ((market.data.drop coin_lot_idx).take 8)),
              accounts := [payer, oo, user], seeds := [] }]) := by
  constructor
  · rfl
  · intro b ctx o user market oo payer h7 hs h0 h1 h6 hside hmlen hover
    have hnl : ¬(market.data.length < coin_lot_idx + 8) := by omega
    refine ⟨{ ctx with
        pre_instructions := ctx.pre_instructions ++
          [{ ix := .approve payer.key oo.key user.key
               (o.max_coin_qty *
                 u64_from_le ((market.data.drop coin_lot_idx).take 8)),
             accounts := [payer, oo, user], seeds := [] }]
        post_instructions := ctx.post_instructions ++
          [{ ix := .revoke payer.key user.key, accounts := [payer, user],
             seeds := [] }]
        seeds := ctx.seeds ++
          [open_orders_authority ctx.program_id ctx.dex_program_id
             market.key user.key b]
        accounts := ctx.accounts.set 7 (prepare_pda oo) }, ?_, rfl⟩
    simp [pdaNewOrderV3, accAt, h7, h0, h1, h6, hs, hside, hnl, hover]
    omega

/-- A concrete ask-side market whose lot-size bytes at offset 349 encode
the value 3. -/
def lotMarket : AccountInfo :=
  { key := [2], is_signer := false, is_writable := false, owner := [],
    data := List.replicate 349 0 ++ 3 :: List.replicate 7 0, lamports := 0 }

/-- A concrete place-order context holding the lot-size-3 market. -/
def lotCtx : Context :=
  Context.new [] SERUM_DEX_PROGRAM_ID
    (lotMarket :: List.replicate 6 (sampleAccount [1] false) ++
      [sampleAccount [1] true])

/-- A concrete ask order with max_coin_qty = 5. -/
def lotOrder : NewOrderInstructionV3 :=
  { side := .ask, limit_price := 0, max_coin_qty := 5,
    max_native_pc_qty_including_fees := 0, self_trade_behavior := 0,
    order_type := 0, client_order_id := 0, limit := 0, max_ts := 0 }

set_option maxRecDepth 10000 in
/-- Witness for C10 at a concrete non-overflowing input: lot size 3 and
quantity 5 give the exact product 5 * 3. -/
theorem c10_ask_amount_overflow_witness :
    ∃ ctxq, pdaNewOrderV3 0 lotCtx lotOrder = .ok (ctxq, lotOrder) ∧
      ctxq.pre_instructions = lotCtx.pre_instructions ++
        [{ ix := .approve (sampleAccount [1] false).key
             (sampleAccount [1] false).key (sampleAccount [1] true).key
             (lotOrder.max_coin_qty *
               u64_from_le ((lotMarket.data.drop coin_lot_idx).take 8)),
           accounts := [sampleAccount [1] false, sampleAccount [1] false,
             sampleAccount [1] true], seeds := [] }] :=
  c10_ask_amount_overflow.2 0 lotCtx lotOrder (sampleAccount [1] true)
    lotMarket (sampleAccount [1] false) (sampleAccount [1] false)
    (by decide) (by decide) (by decide) (by decide) (by decide) (by decide)
    (by decide) (by decide)

/-- Decidable equality for `Except` results, used to evaluate the model
at concrete inputs. -/
instance {e a : Type} [DecidableEq e] [DecidableEq a] :
    DecidableEq (Except e a) := fun x y =>
  match x, y with
  | .ok v, .ok w =>
    if h : v = w then .isTrue (by rw [h]) else .isFalse (by simp [h])
  | .ok _, .error _ => .isFalse (by simp)
  | .error _, .ok _ => .isFalse (by simp)
  | .error v, .error w =>
    if h : v = w then .isTrue (by rw [h]) else .isFalse (by simp [h])

/-- Counterexample to C1 as stated: a working list of exactly 5 accounts
whose position 3 is a signer, with the buffer [0, 7, 9, ...] routed
through OpenOrdersPda, does not succeed: `validate_init_accounts` runs
on the working list with the two leading accounts dropped and demands 5
accounts there, so the operation fails with the not-enough-account-keys
error both at the hook and through the full dispatcher. -/
theorem c1_init_five_accounts_counterexample :
    fiveAccounts.length = 5 ∧
    (fiveAccounts[3]?.map AccountInfo.is_signer) = some true ∧
    pdaInitOpenOrders 7 9 (Context.new [9] SERUM_DEX_PROGRAM_ID fiveAccounts)
      = .error .notEnoughAccountKeys ∧
    (run [.openOrdersPda 0 0] [9]
      (sampleAccount SERUM_DEX_PROGRAM_ID false :: fiveAccounts)
      [0, 7, 9, 0]).2 = .error .notEnoughAccountKeys := by decide

/-- C1 (amended): the initialize-account buffer [0, bumpA, bumpB, ...]
routed through OpenOrdersPda strips the discriminator and captures the
two bumps; then for every working account list of at least SEVEN
accounts (so that the list with the two leading infrastructure accounts
dropped has the five the validator requires) whose position 3 is a
signer, the operation succeeds, exactly the two seed-paths (authority
with bumpA and init-authority with bumpB) are appended, and the two
leading accounts are dropped from the working list; with no signer at
position 3 it fails with the missing-required-signature error. -/
theorem c1_init_accounts_amended (bA bB b0 bi0 : Nat) (ctx : Context)
    (u m : AccountInfo) (hlen : 7 ≤ ctx.accounts.length)
    (h3 : ctx.accounts[3]? = some u) (h4 : ctx.accounts[4]? = some m) :
    (∀ rest : List Nat,
       mwInstruction (.openOrdersPda b0 bi0) (0 :: bA :: bB :: rest) =
         .ok (.openOrdersPda bA bB, rest)) ∧
    (u.is_signer = true →
       ∃ accts, pdaInitOpenOrders bA bB ctx =
           .ok { ctx with
                   seeds := ctx.seeds ++
                     [open_orders_authority ctx.program_id ctx.dex_program_id
                        m.key u.key bA,
                      open_orders_init_authority ctx.program_id
                        ctx.dex_program_id m.key bB]
                   accounts := accts } ∧
         accts.length + 2 = ctx.accounts.length) ∧
    (u.is_signer = false →
       pdaInitOpenOrders bA bB ctx = .error .missingRequiredSignature) := by
  obtain ⟨a2, h2⟩ : ∃ a2, ctx.accounts[2]? = some a2 :=
    ⟨_, List.getElem?_eq_getElem (by omega)⟩
  obtain ⟨a6, h6⟩ : ∃ a6, ctx.accounts[6]? = some a6 :=
    ⟨_, List.getElem?_eq_getElem (by omega)⟩
  have hd1 : (ctx.accounts.drop 2)[1]? = some u := by
    rw [List.getElem?_drop]; exact h3
  have hd0 : (ctx.accounts.drop 2)[0]? = some a2 := by
    rw [List.getElem?_drop]; exact h2
  have hdlen : (ctx.accounts.drop 2).length = ctx.accounts.length - 2 :=
    List.length_drop ..
  have hnl2 : ¬(ctx.accounts.length - 2 < 5) := by omega
  have hga : 1 < ctx.accounts.length - 2 := by omega
  have hg4 : 4 < ctx.accounts.length - 2 := by omega
  have hset4 : (((ctx.accounts.drop 2).set 1 (prepare_pda a2))[4]?) =
      some a6 := by
    rw [List.getElem?_set_ne (by omega), List.getElem?_drop]; exact h6
  refine ⟨fun rest => by simp [mwInstruction], ?_, ?_⟩
  · intro hs
    refine ⟨((ctx.accounts.drop 2).set 1 (prepare_pda a2)).set 4
      { a6 with is_signer := true }, ?_, ?_⟩
    · simp [pdaInitOpenOrders, accAt, h4, h3, validate_init_accounts,
        List.length_drop, List.length_set, hnl2, hd1, hd0, hs, hga, hg4,
        hset4]
    · simp [List.length_set, hdlen]; omega
  · intro hs
    simp [pdaInitOpenOrders, accAt, h4, h3, validate_init_accounts,
      List.length_drop, hnl2, hd1, hs]

/-- A concrete seven-account working list, position 3 a signer and
position 4 the market (key [2]). -/
def sevenAccounts : List AccountInfo :=
  [sampleAccount [1] false, sampleAccount [1] false, sampleAccount [1] false,
   sampleAccount [1] true, sampleAccount [2] false, sampleAccount [1] false,
   sampleAccount [1] false]

/-- A concrete initialize-account context over `sevenAccounts`. -/
def initCtx : Context := Context.new [9] SERUM_DEX_PROGRAM_ID sevenAccounts

/-- Witness for the amended C1 at a concrete input: seven working
accounts with a signer at position 3 succeed, appending the two
seed-paths and dropping the two leading accounts. -/
theorem c1_init_accounts_amended_witness :
    ∃ accts, pdaInitOpenOrders 7 9 initCtx =
        .ok { initCtx with
                seeds := initCtx.seeds ++
                  [open_orders_authority initCtx.program_id
                     initCtx.dex_program_id (sampleAccount [2] false).key
                     (sampleAccount [1] true).key 7,
                   open_orders_init_authority initCtx.program_id
                     initCtx.dex_program_id (sampleAccount [2] false).key 9]
                accounts := accts } ∧
      accts.length + 2 = initCtx.accounts.length :=
  (c1_init_accounts_amended 7 9 0 0 initCtx (sampleAccount [1] true)
    (sampleAccount [2] false) (by decide) (by decide) (by decide)).2.1
    (by decide)

set_option maxHeartbeats 2000000 in
/-- C4: an initialize-account request whose working list has exactly 4
accounts passes the dispatcher minimum-count check (4 < 4 is false), and
then `OpenOrdersPda::init_open_orders` indexes position 4 of the working
list out of bounds: the invocation aborts by panic, not with the
not-enough-accounts error. -/
theorem c4_init_index_panic (pid : Pubkey) (b bi bA bB : Nat)
    (dex : AccountInfo) (w : List AccountInfo)
    (hkey : dex.key = SERUM_DEX_PROGRAM_ID) (hw : w.length = 4) :
    (run [.openOrdersPda b bi] pid (dex :: w) [0, bA, bB, 0]).2 =
      .error .panic ∧
    (run [.openOrdersPda b bi] pid (dex :: w) [0, bA, bB, 0]).2 ≠
      .error .notEnoughAccounts := by
  have h4 : w[4]? = none := List.getElem?_eq_none (by omega)
  have hrun : (run [.openOrdersPda b bi] pid (dex :: w) [0, bA, bB, 0]).2 =
      .error .panic := by
    simp [run, hkey, runPreParse, mwInstruction, unpack, dispatch,
      Context.new, foldHooks, mwInitOpenOrders, pdaInitOpenOrders, accAt,
      h4, hw]
  exact ⟨hrun, by rw [hrun]; simp⟩

/-- Witness for C4 at a concrete input. -/
theorem c4_init_index_panic_witness :
    (run [.openOrdersPda 0 0] [9]
      (sampleAccount SERUM_DEX_PROGRAM_ID false ::
        List.replicate 4 (sampleAccount [1] false))
      [0, 7, 9, 0]).2 = .error .panic :=
  (c4_init_index_panic [9] 0 0 7 9
    (sampleAccount SERUM_DEX_PROGRAM_ID false)
    (List.replicate 4 (sampleAccount [1] false)) (by decide) (by decide)).1

/-- C5: whenever the pre-parse pass succeeds and the stripped buffer
decodes to an unrecognized instruction, `run` returns success having run
exactly one pre-parse hook and one fallback hook per middleware, in
registration order, and its trace contains no relay and no pre/post
instruction execution. -/
theorem c5_unrecognized_fallback (mws mws' : List MW) (pid : Pubkey)
    (dex : AccountInfo) (rest : List AccountInfo) (data d2 : List Nat)
    (pev : List Event) (hkey : dex.key = SERUM_DEX_PROGRAM_ID)
    (hpre : runPreParse mws 0 data = (pev, .ok (mws', d2)))
    (hun : unpack d2 = none) :
    run mws pid (dex :: rest) data =
      ((List.range mws.length).map Event.preParse ++
       (List.range mws.length).map Event.fallback, .ok .fellBack) ∧
    Event.relay ∉ (run mws pid (dex :: rest) data).1 ∧
    Event.execPre ∉ (run mws pid (dex :: rest) data).1 ∧
    Event.execPost ∉ (run mws pid (dex :: rest) data).1 := by
  rcases runPreParse_spec mws 0 data with ⟨m2, dd, heq, hlen⟩ |
    ⟨evs, e, heq, hev⟩
  · rw [heq] at hpre
    simp at hpre
    obtain ⟨hpev, hm, hd⟩ := hpre
    subst hm hd
    have hrun : run mws pid (dex :: rest) data =
        ((List.range mws.length).map Event.preParse ++
         (List.range mws.length).map Event.fallback, .ok .fellBack) := by
      simp [run, hkey, heq, dispatch, hun, foldFallback_eq, hlen]
    refine ⟨hrun, ?_, ?_, ?_⟩ <;> rw [hrun] <;> simp
  · rw [heq] at hpre
    simp at hpre

/-- Witness for C5 at a concrete input: the buffer [99] is unrecognized,
the logger's fallback runs, and the invocation reports success with no
relay. -/
theorem c5_unrecognized_fallback_witness :
    run [.logger] [] [sampleAccount SERUM_DEX_PROGRAM_ID false] [99] =
      ((List.range 1).map Event.preParse ++
       (List.range 1).map Event.fallback, .ok .fellBack) :=
  (c5_unrecognized_fallback [.logger] [.logger] []
    (sampleAccount SERUM_DEX_PROGRAM_ID false) [] [99] [99]
    [Event.preParse 0] (by decide) (by decide) (by decide)).1

/-- C6: OpenOrdersPda's pre-parse hook panics (reads past the end of the
buffer) on the empty buffer and on any 1- or 2-byte buffer whose first
byte is 0; when this middleware is registered, `run` on those buffers
aborts by panic during pre-parse and the fallback hook never runs, so
the unrecognized-buffer fallback path is unreachable for those
inputs. -/
theorem c6_preparse_panic (b bi x : Nat) (pid : Pubkey)
    (dex : AccountInfo) (rest : List AccountInfo)
    (hkey : dex.key = SERUM_DEX_PROGRAM_ID) :
    mwInstruction (.openOrdersPda b bi) [] = .error .panic ∧
    mwInstruction (.openOrdersPda b bi) [0] = .error .panic ∧
    mwInstruction (.openOrdersPda b bi) [0, x] = .error .panic ∧
    (∀ d, d = [] ∨ d = [0] ∨ d = [0, x] →
       run [.openOrdersPda b bi] pid (dex :: rest) d =
         ([Event.preParse 0], .error .panic) ∧
       Event.fallback 0 ∉
         (run [.openOrdersPda b bi] pid (dex :: rest) d).1) := by
  refine ⟨by simp [mwInstruction], by simp [mwInstruction],
    by simp [mwInstruction], ?_⟩
  intro d hd
  rcases hd with rfl | rfl | rfl <;>
    refine ⟨?_, ?_⟩ <;>
      simp [run, hkey, runPreParse, mwInstruction]

/-- Witness for C6 at a concrete input: the empty buffer panics during
pre-parse with no fallback event. -/
theorem c6_preparse_panic_witness :
    run [.openOrdersPda 1 2] [] [sampleAccount SERUM_DEX_PROGRAM_ID false]
      [] = ([Event.preParse 0], .error .panic) :=
  ((c6_preparse_panic 1 2 5 [] (sampleAccount SERUM_DEX_PROGRAM_ID false) []
    (by decide)).2.2.2 [] (.inl rfl)).1

end OpenbookProxy
